import Mathlib

/-!
Verification of the behavioral core of `investment_app.py`, a Streamlit
dashboard that fetches stock data per ticker and renders four views.

Modelling conventions:
- Python floats are modelled as rationals; the numeric identities the claims
  state are exact arithmetic identities.
- A yfinance `info` dict is an association list from field names to values;
  a value is either a number or a string (the two shapes the source handles).
- Python expressions that would raise a TypeError at runtime (arithmetic or
  numeric formatting applied to a string value) are modelled as `none` in an
  `Option` result, as are exceptions from the upstream fetch.
- The price history is modelled by its ordered list of closing prices, the
  only column the source reads.
-/

set_option autoImplicit false

namespace InvestApp

/-- A scalar value stored in a quote-info mapping: a number or a string. -/
inductive Val where
  | num (q : ℚ)
  | str (s : String)
  deriving DecidableEq, Repr

/-- A quote-info mapping (Python dict), as an ordered association list. -/
abbrev Info := List (String × Val)

/-- Dict lookup: first binding for the key, if any (source: `info[k]` access). -/
def lookupInfo (info : Info) (k : String) : Option Val :=
  (info.find? (fun p => p.1 = k)).map (fun p => p.2)

/-- Python `info.get(k, d)`: the stored value, or the default when absent. -/
def getVal (info : Info) (k : String) (d : Val) : Val :=
  (lookupInfo info k).getD d

/-- Python `info.get(k, d)` for a numeric default, used where the source then
does arithmetic or numeric formatting on the result: absent yields the
default, a stored number yields that number, and a stored string is `none`
(the source would raise a TypeError there). -/
def getNum (info : Info) (k : String) (d : ℚ) : Option ℚ :=
  match lookupInfo info k with
  | none => some d
  | some (Val.num v) => some v
  | some (Val.str _) => none

/-! ## Input Collector (source line 63)

`tickers = [t.strip().upper() for t in ticker_input.split(",") if t.strip()]`
-/

/-- The whitespace characters Python `str.strip()` removes (ASCII range). -/
def isPySpace (c : Char) : Bool :=
  c = ' ' ∨ c = '\t' ∨ c = '\n' ∨ c = '\x0d' ∨ c = '\x0b' ∨ c = '\x0c'

/-- Python `str.strip()` on a character list: drop whitespace from both
ends. -/
def pyStrip (cs : List Char) : List Char :=
  ((cs.dropWhile isPySpace).reverse.dropWhile isPySpace).reverse

/-- Python `str.upper()` on a character list (ASCII letters). -/
def pyUpper (cs : List Char) : List Char :=
  cs.map Char.toUpper

/-- Python `str.split(",")` on a character list: the comma-separated pieces,
with the empty input yielding one empty piece. -/
def splitOnComma : List Char → List (List Char)
  | [] => [[]]
  | c :: cs =>
      if c = ',' then [] :: splitOnComma cs
      else
        match splitOnComma cs with
        | [] => [[c]]
        | t :: ts => (c :: t) :: ts

/-- Parse the raw ticker text: split on commas, keep tokens that are nonempty
after stripping, and map each kept token to its stripped upper-cased form. -/
def tickersOf (tickerInput : String) : List String :=
  ((splitOnComma tickerInput.data).filter (fun t => pyStrip t ≠ [])).map
    (fun t => String.mk (pyUpper (pyStrip t)))

/-- Spec-side restatement of the parser, for the refinement theorem of C4:
split on commas, trim every token, drop the empties, upper-case the rest. -/
def tickersSpec (tickerInput : String) : List String :=
  ((((splitOnComma tickerInput.data).map pyStrip).filter
    (fun t => t ≠ [])).map (fun t => String.mk (pyUpper t)))

/-! ## Access Gate (source lines 16-47)

`st.session_state` holds a boolean `password_correct`, initialised to false
when absent.  A login attempt with the correct secret sets it to true and
reruns; a wrong secret shows an error and leaves the flag untouched.  Once
the flag is true, `check_password` returns true without prompting.
-/

/-- The fixed secret from source line 20. -/
def CORRECT_PASSWORD : String := "Invest2026"

/-- The session state the gate reads and writes: the unlocked flag,
`st.session_state["password_correct"]`. -/
structure GateState where
  password_correct : Bool
  deriving DecidableEq, Repr

/-- Initialisation at the top of `check_password` (lines 22-23): a missing
flag becomes `false`, an existing flag is kept. -/
def initGate (stored : Option Bool) : GateState :=
  ⟨stored.getD false⟩

/-- One login attempt (lines 36-41).  Returns the state afterwards and
whether the incorrect-password error was shown.  When already unlocked the
prompt is never rendered, so the attempt is a no-op. -/
def loginAttempt (st : GateState) (input : String) : GateState × Bool :=
  if st.password_correct then (st, false)
  else if input = CORRECT_PASSWORD then (⟨true⟩, false)
  else (st, true)

/-- `check_password` returns true exactly when the flag is set (lines 25-26,
43); after a successful attempt the rerun reaches this with the flag true. -/
def checkPassword (st : GateState) : Bool :=
  st.password_correct

/-! ## Market Data Fetcher (source lines 104-133)

Per ticker the loop calls yfinance inside a try block; a raised exception
skips the ticker, and a ticker is inserted into `stock_data` only when its
history is nonempty and its info dict is truthy (nonempty).
-/

/-- What one upstream fetch for a ticker produced: an exception, or an info
dict together with the closing-price history. -/
inductive FetchResult where
  | exn
  | ok (info : Info) (history : List ℚ)
  deriving DecidableEq, Repr

/-- The per-ticker data kept in `stock_data` (lines 115-121). -/
structure Snapshot where
  info : Info
  history : List ℚ
  deriving DecidableEq, Repr

/-- One iteration of the fetch loop (lines 104-126): an exception or invalid
data leaves `stock_data` unchanged, valid data appends the snapshot. -/
def fetchStep (acc : List (String × Snapshot)) (ticker : String)
    (r : FetchResult) : List (String × Snapshot) :=
  match r with
  | FetchResult.exn => acc
  | FetchResult.ok info history =>
      if 0 < history.length ∧ info ≠ [] then acc ++ [(ticker, ⟨info, history⟩)]
      else acc

/-- The whole fetch loop: fold `fetchStep` over the tickers paired with what
the upstream returned for each. -/
def fetchAll (fetches : List (String × FetchResult)) : List (String × Snapshot) :=
  fetches.foldl (fun acc p => fetchStep acc p.1 p.2) []

/-- A fetch outcome that the loop drops: an exception, an empty history, or
an empty info dict. -/
def fetchFails (r : FetchResult) : Prop :=
  match r with
  | FetchResult.exn => True
  | FetchResult.ok info history => ¬(0 < history.length ∧ info ≠ [])

instance (r : FetchResult) : Decidable (fetchFails r) := by
  unfold fetchFails
  cases r <;> infer_instance

/-- What the run does after the loop (lines 139-148): an empty `stock_data`
takes the terminal total-failure path and stops; otherwise the four tabs
render from the successful subset. -/
inductive RunOutcome where
  | totalFailure
  | render (data : List (String × Snapshot))
  deriving DecidableEq, Repr

/-- The branch at line 139: `if len(stock_data) == 0`. -/
def afterFetch (fetches : List (String × FetchResult)) : RunOutcome :=
  let d := fetchAll fetches
  if d.length = 0 then RunOutcome.totalFailure else RunOutcome.render d

/-! ## Derived Metrics Calculator (overview card, lines 166-180)

`current_price = info.get('currentPrice', 0)`; a numeric zero falls back to
the last close when the history is nonempty.  `previous_close =
info.get('previousClose', 0)`; `change = current_price - previous_close`;
`change_pct = (change / previous_close * 100) if previous_close > 0 else 0`.
-/

/-- Lines 166-168: the displayed current price, before any formatting.  A
string value survives the `== 0` comparison unchanged (it compares unequal),
so the result is still a `Val`. -/
def currentPrice (info : Info) (history : List ℚ) : Val :=
  match getVal info "currentPrice" (Val.num 0) with
  | Val.num q =>
      if q = 0 then
        match history.getLast? with
        | some c => Val.num c
        | none => Val.num q
      else Val.num q
  | Val.str s => Val.str s

/-- Lines 170-172: the percent change versus previous close.  `none` models
the TypeError the source raises at line 171 when either operand of the
subtraction is a string. -/
def changePct (info : Info) (history : List ℚ) : Option ℚ :=
  match currentPrice info history, getVal info "previousClose" (Val.num 0) with
  | Val.num cp, Val.num pc =>
      some (if pc > 0 then (cp - pc) / pc * 100 else 0)
  | _, _ => none

/-! ## Performance table (lines 225-238)

One row per ticker whose history has more than one point: start price, end
price, total return percent, and the sample standard deviation of the
closes.  The standard deviation is irrational in general, so the embedding
carries its square (the sample variance); the source displays its square
root.  `pandas.Series.std()` is library code, documented to use a sample
variance with divisor n - ddof and default ddof = 1.
-/

/-- Arithmetic mean of a list of closes (`pandas` mean: sum over count). -/
def meanQ (xs : List ℚ) : ℚ :=
  xs.sum / xs.length

/-- Sample variance with divisor n - 1, the square of what
`history['Close'].std()` returns (pandas default ddof = 1). -/
def sampleVariance (xs : List ℚ) : ℚ :=
  ((xs.map (fun x => (x - meanQ xs) * (x - meanQ xs))).sum) / (xs.length - 1 : ℕ)

/-- Population variance with divisor n, the square of what a ddof = 0
standard deviation would return; used only to separate the two readings. -/
def popVariance (xs : List ℚ) : ℚ :=
  ((xs.map (fun x => (x - meanQ xs) * (x - meanQ xs))).sum) / (xs.length : ℕ)

/-- One row of the performance summary, numeric fields before formatting.
`volatilitySq` is the square of the displayed volatility. -/
structure PerfRow where
  ticker : String
  startPrice : ℚ
  endPrice : ℚ
  totalReturn : ℚ
  volatilitySq : ℚ
  deriving DecidableEq, Repr

/-- Lines 226-238: a row is produced only when `len(history) > 1`. -/
def perfRow (ticker : String) (s : Snapshot) : Option PerfRow :=
  if 1 < s.history.length then
    let startPrice := (s.history.head?).getD 0
    let endPrice := (s.history.getLast?).getD 0
    some { ticker := ticker
           startPrice := startPrice
           endPrice := endPrice
           totalReturn := (endPrice - startPrice) / startPrice * 100
           volatilitySq := sampleVariance s.history }
  else none

/-- The whole performance table (`perf_data`), in `stock_data` order. -/
def perfData (stocks : List (String × Snapshot)) : List PerfRow :=
  stocks.filterMap (fun p => perfRow p.1 p.2)

/-! ## Number formatting

Python f-string format specs used by the source:
`:.2f` fixed two decimals, no grouping; `:,.0f` no decimals, thousands
grouped with commas.  Rounding is round-half-to-even on the decimal value.
-/

/-- Floor of a rational, via flooring integer division. -/
def floorQ (x : ℚ) : ℤ :=
  Int.fdiv x.num x.den

/-- Round-half-to-even to an integer, the rounding of float formatting. -/
def roundHalfEven (x : ℚ) : ℤ :=
  let f := floorQ x
  let r := x - (f : ℚ)
  if r < 1/2 then f
  else if 1/2 < r then f + 1
  else if f % 2 = 0 then f else f + 1

/-- Group a digit list (least significant digit first) into threes with
commas, producing the grouped digits least significant first. -/
def groupRev : List Char → List Char
  | [] => []
  | [a] => [a]
  | [a, b] => [a, b]
  | [a, b, c] => [a, b, c]
  | a :: b :: c :: d :: rest => a :: b :: c :: ',' :: groupRev (d :: rest)

/-- Decimal digits of a natural number with thousands separators. -/
def groupDigits (n : ℕ) : String :=
  String.mk (groupRev (Nat.repr n).data.reverse).reverse

/-- Left-pad a string with zeros to the given length. -/
def padZeros (s : String) (len : ℕ) : String :=
  String.mk (List.replicate (len - s.length) '0') ++ s

/-- Fixed-point rendering of a rational with `decs` decimals, thousands
grouping on the integer part when `sep` is true: the semantics of the
format specs `:.2f` (decs 2, sep false) and `:,.0f` (decs 0, sep true). -/
def fmtFixed (decs : ℕ) (sep : Bool) (x : ℚ) : String :=
  let scaled := roundHalfEven (x * ((10 ^ decs : ℕ) : ℚ))
  let sign := if scaled < 0 then "-" else ""
  let n := scaled.natAbs
  let intPart := n / 10 ^ decs
  let intStr := if sep then groupDigits intPart else Nat.repr intPart
  if decs = 0 then sign ++ intStr
  else sign ++ intStr ++ "." ++ padZeros (Nat.repr (n % 10 ^ decs)) decs

/-! ## View Renderer: overview cards (lines 175-190)

The card shows the price as a 2-decimal dollar amount, the change percent as
a 2-decimal percentage, market cap as a 0-decimal comma-grouped dollar
amount, dividend yield times 100 as a 2-decimal percentage, and passes the
PE, 52-week high and low, and sector values through `str()` with an `N/A`
default.  `none` models a TypeError from formatting a string value.
-/

/-- Line 178: `value=f"$\x7bcurrent_price:.2f\x7d"`. -/
def overviewPriceText (info : Info) (history : List ℚ) : Option String :=
  match currentPrice info history with
  | Val.num cp => some ("$" ++ fmtFixed 2 false cp)
  | Val.str _ => none

/-- Line 179: `delta=f"\x7bchange_pct:.2f\x7d%"`. -/
def overviewChangeText (info : Info) (history : List ℚ) : Option String :=
  (changePct info history).map (fun c => fmtFixed 2 false c ++ "%")

/-- Line 184: market cap, `:,.0f` with default 0. -/
def overviewMarketCapText (info : Info) : Option String :=
  (getNum info "marketCap" 0).map (fun v => "$" ++ fmtFixed 0 true v)

/-- Line 186: dividend yield times 100, `:.2f` with default 0. -/
def overviewDividendYieldText (info : Info) : Option String :=
  (getNum info "dividendYield" 0).map (fun v => fmtFixed 2 false (v * 100) ++ "%")

/-- Line 185: the PE value rendered raw with an `N/A` default. -/
def overviewPEVal (info : Info) : Val :=
  getVal info "trailingPE" (Val.str "N/A")

/-- Line 187: the 52-week high rendered raw (after a dollar sign) with an
`N/A` default. -/
def overviewHigh52Val (info : Info) : Val :=
  getVal info "fiftyTwoWeekHigh" (Val.str "N/A")

/-- Line 188: the 52-week low rendered raw (after a dollar sign) with an
`N/A` default. -/
def overviewLow52Val (info : Info) : Val :=
  getVal info "fiftyTwoWeekLow" (Val.str "N/A")

/-- Line 189: the sector rendered raw with an `N/A` default. -/
def overviewSectorVal (info : Info) : Val :=
  getVal info "sector" (Val.str "N/A")

/-! ## View Renderer: financial metrics table (lines 251-264)

Every field defaults to 0 and is then formatted: revenue, net income and
free cash flow as `$:,.0f`; the margins and ROE as `value*100:.2f%`; debt
to equity and current ratio as `:.2f`.
-/

/-- One row of `financial_data`, all cells already formatted. -/
structure FinRow where
  ticker : String
  revenue : String
  netIncome : String
  operatingMargin : String
  profitMargin : String
  roe : String
  debtEquity : String
  currentRatio : String
  freeCashFlow : String
  deriving DecidableEq, Repr

/-- Lines 254-264; `none` models a TypeError from a string-valued field,
which in the source would abort the run; the fields are read in the order
the source formats them. -/
def financialRow (ticker : String) (info : Info) : Option FinRow :=
  (getNum info "totalRevenue" 0).bind fun rev =>
  (getNum info "netIncomeToCommon" 0).bind fun ni =>
  (getNum info "operatingMargins" 0).bind fun om =>
  (getNum info "profitMargins" 0).bind fun pm =>
  (getNum info "returnOnEquity" 0).bind fun roe =>
  (getNum info "debtToEquity" 0).bind fun de =>
  (getNum info "currentRatio" 0).bind fun cr =>
  (getNum info "freeCashflow" 0).map fun fcf =>
  { ticker := ticker
    revenue := "$" ++ fmtFixed 0 true rev
    netIncome := "$" ++ fmtFixed 0 true ni
    operatingMargin := fmtFixed 2 false (om * 100) ++ "%"
    profitMargin := fmtFixed 2 false (pm * 100) ++ "%"
    roe := fmtFixed 2 false (roe * 100) ++ "%"
    debtEquity := fmtFixed 2 false de
    currentRatio := fmtFixed 2 false cr
    freeCashFlow := "$" ++ fmtFixed 0 true fcf }

/-! ## View Renderer: comparison table (lines 297-327)

`value = info.get(metric, 'N/A')`; a numeric market cap is formatted
`$:,.0f`, a numeric dividend yield `value*100:.2f%`, any other number
`:.2f`, and anything non-numeric (including the `N/A` default) is passed
through unchanged.
-/

/-- Lines 316-325: one formatted cell of the comparison table. -/
def compMetric (info : Info) (metric : String) : String :=
  match getVal info metric (Val.str "N/A") with
  | Val.num v =>
      if metric = "marketCap" then "$" ++ fmtFixed 0 true v
      else if metric = "dividendYield" then fmtFixed 2 false (v * 100) ++ "%"
      else fmtFixed 2 false v
  | Val.str s => s

/-! ## View Renderer: PE bar chart filter (lines 349-357)

`pe = info.get('trailingPE', None)`; the chart keeps the ticker only when
`pe and pe > 0 and pe < 100`.  A missing PE (None) and a numeric zero are
falsy and skipped; a nonempty string would raise a TypeError at `pe > 0`.
-/

/-- The per-ticker chart decision: `none` models the TypeError on a
nonempty string PE; `some none` is a skipped ticker; `some (some q)` is a
kept ticker with its PE. -/
def peEntry (pe : Option Val) : Option (Option ℚ) :=
  match pe with
  | none => some none
  | some (Val.num q) =>
      some (if q ≠ 0 ∧ 0 < q ∧ q < 100 then some q else none)
  | some (Val.str s) => if s = "" then some none else none

/-- Lines 349-357: the `pe_data` list behind the bar chart, tickers in
`stock_data` order with their PE values. -/
def peData (stocks : List (String × Info)) : Option (List (String × ℚ)) := do
  let rows ← stocks.mapM (fun p =>
    (peEntry (lookupInfo p.2 "trailingPE")).map
      (fun o => o.map (fun q => (p.1, q))))
  pure (rows.reduceOption)

/-! ## Helper lemmas -/

/-- Every snapshot `fetchStep` keeps or adds has a nonempty history and a
nonempty info dict. -/
lemma fetchStep_preserves (acc : List (String × Snapshot)) (t : String)
    (r : FetchResult)
    (h : ∀ p ∈ acc, p.2.history ≠ [] ∧ p.2.info ≠ []) :
    ∀ p ∈ fetchStep acc t r, p.2.history ≠ [] ∧ p.2.info ≠ [] := by
  intro p hp
  cases r with
  | exn => exact h p hp
  | ok info history =>
      simp only [fetchStep] at hp
      by_cases hcond : 0 < history.length ∧ info ≠ []
      · rw [if_pos hcond] at hp
        rcases List.mem_append.mp hp with h1 | h2
        · exact h p h1
        · simp only [List.mem_singleton] at h2
          subst h2
          exact ⟨List.length_pos.mp hcond.1, hcond.2⟩
      · rw [if_neg hcond] at hp
        exact h p hp

/-- The fold of `fetchStep` preserves the nonemptiness invariant of the
accumulator. -/
lemma fetchFold_preserves (fs : List (String × FetchResult)) :
    ∀ (acc : List (String × Snapshot)),
      (∀ p ∈ acc, p.2.history ≠ [] ∧ p.2.info ≠ []) →
      ∀ p ∈ fs.foldl (fun acc p => fetchStep acc p.1 p.2) acc,
        p.2.history ≠ [] ∧ p.2.info ≠ [] := by
  induction fs with
  | nil => intro acc h p hp; exact h p hp
  | cons f fs ih =>
      intro acc h p hp
      exact ih (fetchStep acc f.1 f.2) (fetchStep_preserves acc f.1 f.2 h) p hp

/-- A failing fetch leaves the accumulator unchanged. -/
lemma fetchStep_of_fails (acc : List (String × Snapshot)) (t : String)
    (r : FetchResult) (h : fetchFails r) : fetchStep acc t r = acc := by
  cases r with
  | exn => rfl
  | ok info history =>
      simp only [fetchFails] at h
      simp only [fetchStep]
      rw [if_neg h]

/-- The fold of `fetchStep` never shrinks the accumulator. -/
lemma fetchFold_length_mono (fs : List (String × FetchResult)) :
    ∀ (acc : List (String × Snapshot)),
      acc.length ≤ (fs.foldl (fun acc p => fetchStep acc p.1 p.2) acc).length := by
  induction fs with
  | nil => intro acc; exact le_refl _
  | cons f fs ih =>
      intro acc
      simp only [List.foldl_cons]
      refine le_trans ?_ (ih (fetchStep acc f.1 f.2))
      cases hr : f.2 with
      | exn => simp [fetchStep]
      | ok info history =>
          simp only [fetchStep]
          by_cases hcond : 0 < history.length ∧ info ≠ []
          · rw [if_pos hcond]; simp
          · rw [if_neg hcond]

/-- A successful fetch anywhere in the list makes the fold nonempty. -/
lemma fetchFold_nonempty (fs : List (String × FetchResult)) :
    ∀ (acc : List (String × Snapshot)),
      (∃ p ∈ fs, ¬ fetchFails p.2) →
      (fs.foldl (fun acc p => fetchStep acc p.1 p.2) acc).length ≠ 0 := by
  induction fs with
  | nil => intro acc h; rcases h with ⟨p, hp, _⟩; cases hp
  | cons f fs ih =>
      intro acc h
      rcases h with ⟨p, hp, hok⟩
      simp only [List.foldl_cons]
      rcases List.mem_cons.mp hp with rfl | htail
      · cases hr : p.2 with
        | exn =>
            rw [hr] at hok
            simp only [fetchFails] at hok
            exact absurd trivial hok
        | ok info history =>
            rw [hr] at hok
            simp only [fetchFails, not_not] at hok
            have hstep : fetchStep acc p.1 (FetchResult.ok info history) =
                acc ++ [(p.1, ⟨info, history⟩)] := by
              simp only [fetchStep]; rw [if_pos hok]
            have hlen :
                1 ≤ (fetchStep acc p.1 (FetchResult.ok info history)).length := by
              rw [hstep]; simp
            have := fetchFold_length_mono fs
              (fetchStep acc p.1 (FetchResult.ok info history))
            omega
      · exact ih (fetchStep acc f.1 f.2) ⟨p, htail, hok⟩

/-- A produced financial row decomposes into the eight fetched numbers and
the record the source formats from them. -/
lemma financialRow_eq_some (t : String) (info : Info) (r : FinRow)
    (hrow : financialRow t info = some r) :
    ∃ rev ni om pm roe de cr fcf,
      getNum info "totalRevenue" 0 = some rev ∧
      getNum info "netIncomeToCommon" 0 = some ni ∧
      getNum info "operatingMargins" 0 = some om ∧
      getNum info "profitMargins" 0 = some pm ∧
      getNum info "returnOnEquity" 0 = some roe ∧
      getNum info "debtToEquity" 0 = some de ∧
      getNum info "currentRatio" 0 = some cr ∧
      getNum info "freeCashflow" 0 = some fcf ∧
      r = { ticker := t
            revenue := "$" ++ fmtFixed 0 true rev
            netIncome := "$" ++ fmtFixed 0 true ni
            operatingMargin := fmtFixed 2 false (om * 100) ++ "%"
            profitMargin := fmtFixed 2 false (pm * 100) ++ "%"
            roe := fmtFixed 2 false (roe * 100) ++ "%"
            debtEquity := fmtFixed 2 false de
            currentRatio := fmtFixed 2 false cr
            freeCashFlow := "$" ++ fmtFixed 0 true fcf } := by
  unfold financialRow at hrow
  rcases h1 : getNum info "totalRevenue" 0 with _ | rev <;> rw [h1] at hrow
  · simp at hrow
  rw [Option.some_bind] at hrow
  rcases h2 : getNum info "netIncomeToCommon" 0 with _ | ni <;> rw [h2] at hrow
  · simp at hrow
  rw [Option.some_bind] at hrow
  rcases h3 : getNum info "operatingMargins" 0 with _ | om <;> rw [h3] at hrow
  · simp at hrow
  rw [Option.some_bind] at hrow
  rcases h4 : getNum info "profitMargins" 0 with _ | pm <;> rw [h4] at hrow
  · simp at hrow
  rw [Option.some_bind] at hrow
  rcases h5 : getNum info "returnOnEquity" 0 with _ | roe <;> rw [h5] at hrow
  · simp at hrow
  rw [Option.some_bind] at hrow
  rcases h6 : getNum info "debtToEquity" 0 with _ | de <;> rw [h6] at hrow
  · simp at hrow
  rw [Option.some_bind] at hrow
  rcases h7 : getNum info "currentRatio" 0 with _ | cr <;> rw [h7] at hrow
  · simp at hrow
  rw [Option.some_bind] at hrow
  rcases h8 : getNum info "freeCashflow" 0 with _ | fcf <;> rw [h8] at hrow
  · simp at hrow
  rw [Option.map_some'] at hrow
  exact ⟨rev, ni, om, pm, roe, de, cr, fcf, rfl, rfl, rfl, rfl, rfl, rfl, rfl,
    rfl, (Option.some.inj hrow).symm⟩

/-- Once unlocked, a login attempt changes nothing and shows no error. -/
lemma loginAttempt_unlocked (input : String) :
    loginAttempt ⟨true⟩ input = (⟨true⟩, false) := by
  unfold loginAttempt
  rfl

/-- The parser pipeline commutes: filtering after stripping every token is
the same as filtering the raw tokens by their stripped form. -/
lemma filter_map_strip (l : List (List Char)) :
    (l.filter (fun t => pyStrip t ≠ [])).map
        (fun t => String.mk (pyUpper (pyStrip t))) =
      ((l.map pyStrip).filter (fun t => t ≠ [])).map
        (fun t => String.mk (pyUpper t)) := by
  rw [List.filter_map pyStrip l, List.map_map]
  rfl

/-! ## Claims -/

/-- C1: every symbol key present in the snapshot mapping built by the fetch
loop has both a nonempty price history and a nonempty quote-info mapping;
symbols whose fetch raised, or whose history or info came back empty, are
omitted entirely and never partially inserted. -/
theorem fetchAll_complete_snapshots (fetches : List (String × FetchResult))
    (t : String) (s : Snapshot) (hmem : (t, s) ∈ fetchAll fetches) :
    s.history ≠ [] ∧ s.info ≠ [] := by
  have := fetchFold_preserves fetches [] (by intro p hp; cases hp) (t, s) hmem
  exact this

/-- Witness for C1 at a concrete fetch list. -/
theorem fetchAll_complete_snapshots_witness :
    (Snapshot.mk [("shortName", Val.str "Apple")] [5]).history ≠ [] ∧
      (Snapshot.mk [("shortName", Val.str "Apple")] [5]).info ≠ [] :=
  fetchAll_complete_snapshots
    [("AAPL", FetchResult.ok [("shortName", Val.str "Apple")] [5]),
     ("BAD", FetchResult.exn)]
    "AAPL" (Snapshot.mk [("shortName", Val.str "Apple")] [5]) (by decide)

/-- C3: when every requested symbol fails, the loop yields an empty mapping
and the run takes the distinct total-failure path; when at least one symbol
succeeds, the run renders the successful subset. -/
theorem totalFailure_path (fetches : List (String × FetchResult)) :
    ((∀ p ∈ fetches, fetchFails p.2) →
      fetchAll fetches = [] ∧ afterFetch fetches = RunOutcome.totalFailure) ∧
    ((∃ p ∈ fetches, ¬ fetchFails p.2) →
      fetchAll fetches ≠ [] ∧
        afterFetch fetches = RunOutcome.render (fetchAll fetches)) := by
  constructor
  · intro hall
    have hempty : fetchAll fetches = [] := by
      unfold fetchAll
      induction fetches with
      | nil => rfl
      | cons f fs ih =>
          have hf : fetchFails f.2 := hall f (List.mem_cons_self f fs)
          simp only [List.foldl_cons, fetchStep_of_fails [] f.1 f.2 hf]
          exact ih (fun p hp => hall p (List.mem_cons_of_mem f hp))
    refine ⟨hempty, ?_⟩
    unfold afterFetch
    rw [hempty]
    rfl
  · intro hsome
    have hne : (fetchAll fetches).length ≠ 0 := fetchFold_nonempty fetches [] hsome
    refine ⟨fun h => hne (by rw [h]; rfl), ?_⟩
    unfold afterFetch
    simp only [if_neg hne]

/-- Witness for C3: both branches at concrete fetch lists. -/
theorem totalFailure_path_witness :
    (fetchAll [("AAPL", FetchResult.exn), ("MSFT", FetchResult.ok [] [1])] = [] ∧
      afterFetch [("AAPL", FetchResult.exn), ("MSFT", FetchResult.ok [] [1])] =
        RunOutcome.totalFailure) ∧
    (fetchAll [("AAPL", FetchResult.ok [("shortName", Val.str "Apple")] [5])] ≠ [] ∧
      afterFetch [("AAPL", FetchResult.ok [("shortName", Val.str "Apple")] [5])] =
        RunOutcome.render
          (fetchAll [("AAPL", FetchResult.ok [("shortName", Val.str "Apple")] [5])])) :=
  ⟨(totalFailure_path [("AAPL", FetchResult.exn), ("MSFT", FetchResult.ok [] [1])]).1
      (by decide),
   (totalFailure_path [("AAPL", FetchResult.ok [("shortName", Val.str "Apple")] [5])]).2
      ⟨("AAPL", FetchResult.ok [("shortName", Val.str "Apple")] [5]), by decide, by decide⟩⟩

/-- C4: the ticker parser splits on commas, trims each token, upper-cases
it, drops tokens empty after trimming, preserves input order and does not
deduplicate; the raw text with extra spaces and an empty token parses to
the two upper-cased symbols, and a duplicated symbol is kept twice. -/
theorem tickersOf_spec :
    (∀ s : String, tickersOf s = tickersSpec s) ∧
      tickersOf " aapl, , msft " = ["AAPL", "MSFT"] ∧
      tickersOf "aapl,AAPL" = ["AAPL", "AAPL"] := by
  refine ⟨fun s => ?_, by decide, by decide⟩
  unfold tickersOf tickersSpec
  exact filter_map_strip (splitOnComma s.data)

/-- C5: the gate compares the entered text to the fixed secret by exact
string equality; a mismatch shows the error and leaves the flag false, a
match sets the flag, and from an unlocked state every later check succeeds
with no prompt, whatever is typed. -/
theorem accessGate_spec :
    checkPassword (initGate none) = false ∧
    (∀ (st : GateState) (input : String), st.password_correct = false →
      input ≠ CORRECT_PASSWORD → loginAttempt st input = (st, true)) ∧
    (∀ st : GateState, st.password_correct = false →
      loginAttempt st CORRECT_PASSWORD = (GateState.mk true, false)) ∧
    (∀ inputs : List String,
      checkPassword
        (inputs.foldl (fun s i => (loginAttempt s i).1) (GateState.mk true)) = true) := by
  refine ⟨rfl, ?_, ?_, ?_⟩
  · intro st input hlocked hne
    unfold loginAttempt
    rw [hlocked]
    simp [hne]
  · intro st hlocked
    unfold loginAttempt
    rw [hlocked]
    simp
  · intro inputs
    induction inputs with
    | nil => rfl
    | cons i l ih => simpa [loginAttempt_unlocked] using ih

/-- Witness for C5: the wrong secret is rejected without unlocking, the
right secret unlocks, and two later checks succeed unprompted. -/
theorem accessGate_spec_witness :
    loginAttempt (GateState.mk false) "wrong" = (GateState.mk false, true) ∧
    loginAttempt (GateState.mk false) "Invest2026" = (GateState.mk true, false) ∧
    checkPassword
      ((["wrong again", "anything"].foldl (fun s i => (loginAttempt s i).1)
        (GateState.mk true))) = true :=
  ⟨(accessGate_spec.2.1) (GateState.mk false) "wrong" rfl (by decide),
   (accessGate_spec.2.2.1) (GateState.mk false) rfl,
   (accessGate_spec.2.2.2) ["wrong again", "anything"]⟩

/-- C2: with a numeric current price and previous close, the percent change
is the change over previous close times 100 when the previous close is
positive, and exactly 0 whenever the previous close is nonpositive,
including when the field is absent and defaults to 0, for any current
price. -/
theorem changePct_spec (info : Info) (history : List ℚ) (cp pc : ℚ)
    (hcp : currentPrice info history = Val.num cp)
    (hpc : getVal info "previousClose" (Val.num 0) = Val.num pc) :
    (0 < pc → changePct info history = some ((cp - pc) / pc * 100)) ∧
    (pc ≤ 0 → changePct info history = some 0) := by
  have h : changePct info history =
      some (if pc > 0 then (cp - pc) / pc * 100 else 0) := by
    unfold changePct
    rw [hcp, hpc]
  constructor
  · intro hpos
    rw [h, if_pos hpos]
  · intro hle
    rw [h, if_neg (not_lt.mpr hle)]

/-- Witness for C2: a positive previous close uses the formula; a negative
one and an absent one both give exactly 0. -/
theorem changePct_spec_witness :
    changePct [("currentPrice", Val.num 110), ("previousClose", Val.num 100)] [] =
      some ((110 - 100) / 100 * 100) ∧
    changePct [("currentPrice", Val.num 110), ("previousClose", Val.num (-5))] [] =
      some 0 ∧
    changePct [("currentPrice", Val.num 110)] [] = some 0 :=
  ⟨(changePct_spec [("currentPrice", Val.num 110), ("previousClose", Val.num 100)]
      [] 110 100 (by with_unfolding_all rfl) (by with_unfolding_all rfl)).1
      (by norm_num),
   (changePct_spec [("currentPrice", Val.num 110), ("previousClose", Val.num (-5))]
      [] 110 (-5) (by with_unfolding_all rfl) (by with_unfolding_all rfl)).2
      (by norm_num),
   (changePct_spec [("currentPrice", Val.num 110)] [] 110 0
      (by with_unfolding_all rfl) (by with_unfolding_all rfl)).2 le_rfl⟩

/-- C6: a symbol with a numeric trailing PE is kept by the PE bar chart
exactly when its PE is strictly between 0 and 100; otherwise its entry is
skipped; on the example PEs 28.5, 150 and -5 only the first symbol
remains. -/
theorem peFilter_spec :
    (∀ q : ℚ, peEntry (some (Val.num q)) = some (some q) ↔ (0 < q ∧ q < 100)) ∧
    (∀ q : ℚ, ¬(0 < q ∧ q < 100) → peEntry (some (Val.num q)) = some none) ∧
    peData [("AAPL", [("trailingPE", Val.num 28.5)]),
            ("XYZ", [("trailingPE", Val.num 150)]),
            ("ABC", [("trailingPE", Val.num (-5))])] =
      some [("AAPL", (28.5 : ℚ))] := by
  refine ⟨?_, ?_, by with_unfolding_all rfl⟩
  · intro q
    simp only [peEntry]
    by_cases hc : q ≠ 0 ∧ 0 < q ∧ q < 100
    · rw [if_pos hc]
      exact ⟨fun _ => hc.2, fun _ => rfl⟩
    · rw [if_neg hc]
      constructor
      · intro h
        exact absurd (Option.some.inj h) (fun hx => Option.noConfusion hx)
      · intro h2
        exact absurd ⟨ne_of_gt h2.1, h2.1, h2.2⟩ hc
  · intro q hq
    simp only [peEntry]
    rw [if_neg (fun hx => hq ⟨hx.2.1, hx.2.2⟩)]

/-- Witness for C6: PE 28.5 is kept, PE 150 is skipped. -/
theorem peFilter_spec_witness :
    peEntry (some (Val.num 28.5)) = some (some 28.5) ∧
    peEntry (some (Val.num 150)) = some none :=
  ⟨(peFilter_spec.1 28.5).mpr (by norm_num),
   peFilter_spec.2.1 150 (by norm_num)⟩

/-- C7: with at least two close prices the performance table computes the
total return as last close minus first close over first close times 100;
with zero or one close prices no row is produced for the symbol at all. -/
theorem totalReturn_spec (t : String) (s : Snapshot) :
    (1 < s.history.length →
      ∃ first last, s.history.head? = some first ∧
        s.history.getLast? = some last ∧
        perfRow t s = some
          ⟨t, first, last, (last - first) / first * 100,
            sampleVariance s.history⟩) ∧
    (s.history.length ≤ 1 → perfRow t s = none) := by
  constructor
  · intro h
    have hne : s.history ≠ [] := List.length_pos.mp (by omega)
    refine ⟨s.history.head hne, s.history.getLast hne,
      List.head?_eq_head hne, List.getLast?_eq_getLast _ hne, ?_⟩
    unfold perfRow
    rw [if_pos h, List.head?_eq_head hne, List.getLast?_eq_getLast _ hne]
    rfl
  · intro h
    unfold perfRow
    rw [if_neg (by omega)]

/-- Witness for C7: a two-point history yields a row, a one-point history
yields none. -/
theorem totalReturn_spec_witness :
    (∃ first last,
      (Snapshot.mk [] [100, 110]).history.head? = some first ∧
      (Snapshot.mk [] [100, 110]).history.getLast? = some last ∧
      perfRow "AAPL" (Snapshot.mk [] [100, 110]) = some
        ⟨"AAPL", first, last, (last - first) / first * 100,
          sampleVariance (Snapshot.mk [] [100, 110]).history⟩) ∧
    perfRow "MSFT" (Snapshot.mk [] [100]) = none :=
  ⟨(totalReturn_spec "AAPL" (Snapshot.mk [] [100, 110])).1 (by decide),
   (totalReturn_spec "MSFT" (Snapshot.mk [] [100])).2 (by decide)⟩

/-- C10: every performance row carries the sample variance of the closes
(divisor n - 1, the pandas std default squared), the history behind a row
has at least 2 points so the divisor n - 1 is at least 1, and on the closes
1 and 3 the sample variance is 2 while the population variance (divisor n)
is 1, so the two readings differ. -/
theorem volatility_spec :
    (∀ (t : String) (s : Snapshot) (r : PerfRow), perfRow t s = some r →
      2 ≤ s.history.length ∧ 1 ≤ s.history.length - 1 ∧
        r.volatilitySq = sampleVariance s.history) ∧
    sampleVariance [1, 3] = 2 ∧ popVariance [1, 3] = 1 ∧ (2 : ℚ) ≠ 1 := by
  refine ⟨?_, by with_unfolding_all rfl, by with_unfolding_all rfl, by norm_num⟩
  intro t s r hr
  unfold perfRow at hr
  by_cases h : 1 < s.history.length
  · rw [if_pos h] at hr
    obtain rfl := (Option.some.inj hr).symm
    exact ⟨by omega, by omega, rfl⟩
  · rw [if_neg h] at hr
    exact absurd hr (fun hx => Option.noConfusion hx)

/-- Witness for C10 at the concrete history 1, 3. -/
theorem volatility_spec_witness :
    2 ≤ (Snapshot.mk [] [1, 3]).history.length ∧
    1 ≤ (Snapshot.mk [] [1, 3]).history.length - 1 ∧
    (PerfRow.mk "AAPL" 1 3 200 2).volatilitySq =
      sampleVariance (Snapshot.mk [] [1, 3]).history :=
  volatility_spec.1 "AAPL" (Snapshot.mk [] [1, 3]) (PerfRow.mk "AAPL" 1 3 200 2)
    (by with_unfolding_all rfl)

/-- Counterexample to C8 as stated: the overview card renders a market cap
of 1234567 as the 0-decimal grouped string, which contains no decimal
point; it renders a current price of 1234.5 without any thousands
separator; and it passes a trailing PE of 28.456789 through raw, as the
unformatted number rather than the plain 2-decimal string 28.46 that the
claimed ratio format would produce.  So neither the monetary clause nor
the ratio clause holds of every place a value is displayed. -/
theorem monetary_format_counterexample :
    overviewMarketCapText [("marketCap", Val.num 1234567)] = some "$1,234,567" ∧
    ("$1,234,567".data.contains '.') = false ∧
    overviewPriceText [("currentPrice", Val.num 1234.5)] [] = some "$1234.50" ∧
    ("$1234.50".data.contains ',') = false ∧
    overviewPEVal [("trailingPE", Val.num (28456789 / 1000000))] =
      Val.num (28456789 / 1000000) ∧
    fmtFixed 2 false (28456789 / 1000000) = "28.46" ∧
    overviewPEVal [("trailingPE", Val.num (28456789 / 1000000))] ≠
      Val.str "28.46" :=
  ⟨by with_unfolding_all rfl, by decide, by with_unfolding_all rfl, by decide,
   by with_unfolding_all rfl, by with_unfolding_all rfl, by decide⟩

/-- C8 amended: the current price is a 2-decimal dollar amount without
thousands separators; market cap, revenue, net income and free cash flow
are 0-decimal thousands-separated dollar amounts; percentages are 2-decimal
with a trailing percent sign; ratios (PE, debt/equity, current ratio) are
plain 2-decimal numbers in the financial and comparison tables, while the
overview card passes the trailing PE through raw and unformatted. -/
theorem monetary_format_amended :
    overviewPriceText [("currentPrice", Val.num 1234.5)] [] = some "$1234.50" ∧
    overviewMarketCapText [("marketCap", Val.num 9876543210)] =
      some "$9,876,543,210" ∧
    compMetric [("marketCap", Val.num 1234567)] "marketCap" = "$1,234,567" ∧
    compMetric [("dividendYield", Val.num 0.0234)] "dividendYield" = "2.34%" ∧
    compMetric [("trailingPE", Val.num 28.456)] "trailingPE" = "28.46" ∧
    overviewDividendYieldText [("dividendYield", Val.num 0.0051)] =
      some "0.51%" ∧
    overviewChangeText
      [("currentPrice", Val.num 110), ("previousClose", Val.num 100)] [] =
      some "10.00%" ∧
    financialRow "AAPL"
      [("totalRevenue", Val.num 12345678.9), ("netIncomeToCommon", Val.num 987654),
       ("operatingMargins", Val.num 0.2345), ("debtToEquity", Val.num 1.567),
       ("currentRatio", Val.num 1.23), ("freeCashflow", Val.num 5000000)] =
      some (FinRow.mk "AAPL" "$12,345,679" "$987,654" "23.45%" "0.00%" "0.00%"
        "1.57" "1.23" "$5,000,000") ∧
    overviewPEVal [("trailingPE", Val.num (28456789 / 1000000))] =
      Val.num (28456789 / 1000000) :=
  ⟨by with_unfolding_all rfl, by with_unfolding_all rfl, by with_unfolding_all rfl,
   by with_unfolding_all rfl, by with_unfolding_all rfl, by with_unfolding_all rfl,
   by with_unfolding_all rfl, by with_unfolding_all rfl, by with_unfolding_all rfl⟩

/-- Counterexample to C9 as stated: an info dict without a market cap
renders the market cap cell as a formatted zero, not as the literal N/A,
even though that 0 feeds no downstream calculation. -/
theorem na_default_counterexample :
    lookupInfo [("shortName", Val.str "Apple Inc.")] "marketCap" = none ∧
    overviewMarketCapText [("shortName", Val.str "Apple Inc.")] = some "$0" ∧
    "$0" ≠ "N/A" :=
  ⟨by decide, by with_unfolding_all rfl, by decide⟩

/-- C9 amended: a missing field renders as the literal N/A only where the
source passes an N/A default through raw (trailing PE, 52-week high and
low, and sector on the overview card, and every metric of the comparison
table); the missing market cap and dividend yield of the overview card and
every missing financial-table field default to 0 and render as formatted
zero values. -/
theorem na_default_amended (info : Info) :
    (lookupInfo info "trailingPE" = none → overviewPEVal info = Val.str "N/A") ∧
    (lookupInfo info "sector" = none → overviewSectorVal info = Val.str "N/A") ∧
    (lookupInfo info "fiftyTwoWeekHigh" = none →
      overviewHigh52Val info = Val.str "N/A") ∧
    (lookupInfo info "fiftyTwoWeekLow" = none →
      overviewLow52Val info = Val.str "N/A") ∧
    (∀ metric, lookupInfo info metric = none → compMetric info metric = "N/A") ∧
    (lookupInfo info "marketCap" = none →
      overviewMarketCapText info = some "$0") ∧
    (lookupInfo info "dividendYield" = none →
      overviewDividendYieldText info = some "0.00%") ∧
    (∀ t r, financialRow t info = some r →
      (lookupInfo info "totalRevenue" = none → r.revenue = "$0") ∧
      (lookupInfo info "netIncomeToCommon" = none → r.netIncome = "$0") ∧
      (lookupInfo info "operatingMargins" = none →
        r.operatingMargin = "0.00%") ∧
      (lookupInfo info "profitMargins" = none → r.profitMargin = "0.00%") ∧
      (lookupInfo info "returnOnEquity" = none → r.roe = "0.00%") ∧
      (lookupInfo info "debtToEquity" = none → r.debtEquity = "0.00") ∧
      (lookupInfo info "currentRatio" = none → r.currentRatio = "0.00") ∧
      (lookupInfo info "freeCashflow" = none → r.freeCashFlow = "$0")) := by
  refine ⟨?_, ?_, ?_, ?_, ?_, ?_, ?_, ?_⟩
  · intro h; unfold overviewPEVal getVal; rw [h]; rfl
  · intro h; unfold overviewSectorVal getVal; rw [h]; rfl
  · intro h; unfold overviewHigh52Val getVal; rw [h]; rfl
  · intro h; unfold overviewLow52Val getVal; rw [h]; rfl
  · intro metric h; unfold compMetric getVal; rw [h]; rfl
  · intro h
    unfold overviewMarketCapText getNum
    rw [h]
    with_unfolding_all rfl
  · intro h
    unfold overviewDividendYieldText getNum
    rw [h]
    with_unfolding_all rfl
  · intro t r hrow
    obtain ⟨rev, ni, om, pm, roe, de, cr, fcf,
      hrev, hni, hom, hpm, hroe, hde, hcr, hfcf, hr⟩ :=
      financialRow_eq_some t info r hrow
    subst hr
    refine ⟨?_, ?_, ?_, ?_, ?_, ?_, ?_, ?_⟩
    · intro hnone
      have h0 : getNum info "totalRevenue" 0 = some 0 := by simp [getNum, hnone]
      obtain rfl := Option.some.inj (hrev.symm.trans h0)
      with_unfolding_all rfl
    · intro hnone
      have h0 : getNum info "netIncomeToCommon" 0 = some 0 := by
        simp [getNum, hnone]
      obtain rfl := Option.some.inj (hni.symm.trans h0)
      with_unfolding_all rfl
    · intro hnone
      have h0 : getNum info "operatingMargins" 0 = some 0 := by
        simp [getNum, hnone]
      obtain rfl := Option.some.inj (hom.symm.trans h0)
      with_unfolding_all rfl
    · intro hnone
      have h0 : getNum info "profitMargins" 0 = some 0 := by simp [getNum, hnone]
      obtain rfl := Option.some.inj (hpm.symm.trans h0)
      with_unfolding_all rfl
    · intro hnone
      have h0 : getNum info "returnOnEquity" 0 = some 0 := by
        simp [getNum, hnone]
      obtain rfl := Option.some.inj (hroe.symm.trans h0)
      with_unfolding_all rfl
    · intro hnone
      have h0 : getNum info "debtToEquity" 0 = some 0 := by simp [getNum, hnone]
      obtain rfl := Option.some.inj (hde.symm.trans h0)
      with_unfolding_all rfl
    · intro hnone
      have h0 : getNum info "currentRatio" 0 = some 0 := by simp [getNum, hnone]
      obtain rfl := Option.some.inj (hcr.symm.trans h0)
      with_unfolding_all rfl
    · intro hnone
      have h0 : getNum info "freeCashflow" 0 = some 0 := by simp [getNum, hnone]
      obtain rfl := Option.some.inj (hfcf.symm.trans h0)
      with_unfolding_all rfl

/-- Witness for C9 amended at the empty info dict, where every field is
absent: the raw-default cells show N/A and every financial cell shows its
formatted zero. -/
theorem na_default_amended_witness :
    overviewPEVal [] = Val.str "N/A" ∧
    overviewSectorVal [] = Val.str "N/A" ∧
    compMetric [] "beta" = "N/A" ∧
    overviewMarketCapText [] = some "$0" ∧
    overviewDividendYieldText [] = some "0.00%" ∧
    (FinRow.mk "X" "$0" "$0" "0.00%" "0.00%" "0.00%" "0.00" "0.00" "$0").revenue =
      "$0" ∧
    (FinRow.mk "X" "$0" "$0" "0.00%" "0.00%" "0.00%" "0.00" "0.00" "$0").netIncome =
      "$0" ∧
    (FinRow.mk "X" "$0" "$0" "0.00%" "0.00%" "0.00%" "0.00" "0.00"
      "$0").operatingMargin = "0.00%" ∧
    (FinRow.mk "X" "$0" "$0" "0.00%" "0.00%" "0.00%" "0.00" "0.00"
      "$0").profitMargin = "0.00%" ∧
    (FinRow.mk "X" "$0" "$0" "0.00%" "0.00%" "0.00%" "0.00" "0.00" "$0").roe =
      "0.00%" ∧
    (FinRow.mk "X" "$0" "$0" "0.00%" "0.00%" "0.00%" "0.00" "0.00"
      "$0").debtEquity = "0.00" ∧
    (FinRow.mk "X" "$0" "$0" "0.00%" "0.00%" "0.00%" "0.00" "0.00"
      "$0").currentRatio = "0.00" ∧
    (FinRow.mk "X" "$0" "$0" "0.00%" "0.00%" "0.00%" "0.00" "0.00"
      "$0").freeCashFlow = "$0" :=
  ⟨(na_default_amended []).1 rfl,
   (na_default_amended []).2.1 rfl,
   (na_default_amended []).2.2.2.2.1 "beta" rfl,
   (na_default_amended []).2.2.2.2.2.1 rfl,
   (na_default_amended []).2.2.2.2.2.2.1 rfl,
   ((na_default_amended []).2.2.2.2.2.2.2 "X"
     (FinRow.mk "X" "$0" "$0" "0.00%" "0.00%" "0.00%" "0.00" "0.00" "$0")
     (by with_unfolding_all rfl)).1 rfl,
   ((na_default_amended []).2.2.2.2.2.2.2 "X"
     (FinRow.mk "X" "$0" "$0" "0.00%" "0.00%" "0.00%" "0.00" "0.00" "$0")
     (by with_unfolding_all rfl)).2.1 rfl,
   ((na_default_amended []).2.2.2.2.2.2.2 "X"
     (FinRow.mk "X" "$0" "$0" "0.00%" "0.00%" "0.00%" "0.00" "0.00" "$0")
     (by with_unfolding_all rfl)).2.2.1 rfl,
   ((na_default_amended []).2.2.2.2.2.2.2 "X"
     (FinRow.mk "X" "$0" "$0" "0.00%" "0.00%" "0.00%" "0.00" "0.00" "$0")
     (by with_unfolding_all rfl)).2.2.2.1 rfl,
   ((na_default_amended []).2.2.2.2.2.2.2 "X"
     (FinRow.mk "X" "$0" "$0" "0.00%" "0.00%" "0.00%" "0.00" "0.00" "$0")
     (by with_unfolding_all rfl)).2.2.2.2.1 rfl,
   ((na_default_amended []).2.2.2.2.2.2.2 "X"
     (FinRow.mk "X" "$0" "$0" "0.00%" "0.00%" "0.00%" "0.00" "0.00" "$0")
     (by with_unfolding_all rfl)).2.2.2.2.2.1 rfl,
   ((na_default_amended []).2.2.2.2.2.2.2 "X"
     (FinRow.mk "X" "$0" "$0" "0.00%" "0.00%" "0.00%" "0.00" "0.00" "$0")
     (by with_unfolding_all rfl)).2.2.2.2.2.2.1 rfl,
   ((na_default_amended []).2.2.2.2.2.2.2 "X"
     (FinRow.mk "X" "$0" "$0" "0.00%" "0.00%" "0.00%" "0.00" "0.00" "$0")
     (by with_unfolding_all rfl)).2.2.2.2.2.2.2 rfl⟩

end InvestApp
